import Mathlib

/-!
Shallow embedding of the `truster` ray tracer (Rust) in Lean 4.

The `f64` scalars of the source are modelled as real numbers (`ℝ`); square
roots and powers become `Real.sqrt` / `Real.rpow`.  Machine-integer casts
(`as i32`) keep their exact Rust semantics: truncation toward zero with
saturation at the `i32` range bounds.  Fallible operations (indexing that
panics in Rust) return `Option`.

Every definition follows the corresponding Rust item; the file names the
source file next to each definition.
-/

namespace Truster

open Classical

noncomputable section

/-- `Tuple` from src/tuple.rs: four scalars (x, y, z, w). -/
structure Tuple where
  x : ℝ
  y : ℝ
  z : ℝ
  w : ℝ
deriving DecidableEq

/-- `Tuple::new` from src/tuple.rs. -/
def Tuple.new (x y z w : ℝ) : Tuple := ⟨x, y, z, w⟩

/-- `Tuple::point` from src/tuple.rs: w = 1. -/
def Tuple.point (x y z : ℝ) : Tuple := Tuple.new x y z 1

/-- `Tuple.vector` from src/tuple.rs: w = 0. -/
def Tuple.vector (x y z : ℝ) : Tuple := Tuple.new x y z 0

/-- `impl Add for Tuple` from src/tuple.rs. -/
instance : Add Tuple := ⟨fun a b => Tuple.new (a.x + b.x) (a.y + b.y) (a.z + b.z) (a.w + b.w)⟩

/-- `impl Sub for Tuple` from src/tuple.rs. -/
instance : Sub Tuple := ⟨fun a b => Tuple.new (a.x - b.x) (a.y - b.y) (a.z - b.z) (a.w - b.w)⟩

/-- `impl Neg for Tuple` from src/tuple.rs. -/
instance : Neg Tuple := ⟨fun a => Tuple.new (-a.x) (-a.y) (-a.z) (-a.w)⟩

/-- `impl Mul<f64> for Tuple` from src/tuple.rs. -/
instance : HMul Tuple ℝ Tuple :=
  ⟨fun a r => Tuple.new (a.x * r) (a.y * r) (a.z * r) (a.w * r)⟩

/-- `impl Div<f64> for Tuple` from src/tuple.rs. -/
instance : HDiv Tuple ℝ Tuple :=
  ⟨fun a r => Tuple.new (a.x / r) (a.y / r) (a.z / r) (a.w / r)⟩

/-- `Tuple::dot` from src/tuple.rs. -/
def Tuple.dot (a b : Tuple) : ℝ := a.x * b.x + a.y * b.y + a.z * b.z + a.w * b.w

/-- `Tuple::norm_squared` from src/tuple.rs. -/
def Tuple.norm_squared (a : Tuple) : ℝ := a.x * a.x + a.y * a.y + a.z * a.z + a.w * a.w

/-- `Tuple::norm` from src/tuple.rs. -/
def Tuple.norm (a : Tuple) : ℝ := Real.sqrt a.norm_squared

/-- `Tuple::normalized` from src/tuple.rs: `self / self.norm()`. -/
def Tuple.normalized (a : Tuple) : Tuple := a / a.norm

/-- `Tuple::reflect` from src/tuple.rs: `self - normal * 2.0 * self.dot(normal)`. -/
def Tuple.reflect (a normal : Tuple) : Tuple := a - normal * (2 : ℝ) * a.dot normal

/-- `impl Index<usize> for Tuple` from src/tuple.rs; the panic on an index
other than 0, 1, 2 is modelled as `none`. -/
def Tuple.index (a : Tuple) (i : ℕ) : Option ℝ :=
  match i with
  | 0 => some a.x
  | 1 => some a.y
  | 2 => some a.z
  | _ => none

/-- `impl IndexMut<usize> for Tuple` from src/tuple.rs, as a functional
update; the panic on an index other than 0, 1, 2 is modelled as `none`. -/
def Tuple.index_set (a : Tuple) (i : ℕ) (v : ℝ) : Option Tuple :=
  match i with
  | 0 => some { a with x := v }
  | 1 => some { a with y := v }
  | 2 => some { a with z := v }
  | _ => none

/-- `Color` from src/color.rs: an RGB triple. -/
structure Color where
  r : ℝ
  g : ℝ
  b : ℝ
deriving DecidableEq

/-- `Color::new` from src/color.rs. -/
def Color.new (r g b : ℝ) : Color := ⟨r, g, b⟩

/-- `impl Add for Color` from src/color.rs. -/
instance : Add Color := ⟨fun a c => Color.new (a.r + c.r) (a.g + c.g) (a.b + c.b)⟩

/-- `impl Sub for Color` from src/color.rs. -/
instance : Sub Color := ⟨fun a c => Color.new (a.r - c.r) (a.g - c.g) (a.b - c.b)⟩

/-- `impl Mul for Color` (Hadamard product) from src/color.rs. -/
instance : Mul Color := ⟨fun a c => Color.new (a.r * c.r) (a.g * c.g) (a.b * c.b)⟩

/-- `impl Mul<f64> for Color` from src/color.rs. -/
instance : HMul Color ℝ Color := ⟨fun a s => Color.new (a.r * s) (a.g * s) (a.b * s)⟩

/-- `Matrix` from src/matrix.rs: a 4×4 matrix stored row-major as 16 scalars
(`data[0]` … `data[15]` become fields `d0` … `d15`). -/
structure Matrix4 where
  d0 : ℝ
  d1 : ℝ
  d2 : ℝ
  d3 : ℝ
  d4 : ℝ
  d5 : ℝ
  d6 : ℝ
  d7 : ℝ
  d8 : ℝ
  d9 : ℝ
  d10 : ℝ
  d11 : ℝ
  d12 : ℝ
  d13 : ℝ
  d14 : ℝ
  d15 : ℝ

/-- `Matrix::eye` from src/matrix.rs. -/
def Matrix4.eye : Matrix4 := ⟨1, 0, 0, 0, 0, 1, 0, 0, 0, 0, 1, 0, 0, 0, 0, 1⟩

/-- `Matrix::translation` from src/matrix.rs. -/
def Matrix4.translation (x y z : ℝ) : Matrix4 :=
  ⟨1, 0, 0, x, 0, 1, 0, y, 0, 0, 1, z, 0, 0, 0, 1⟩

/-- `Matrix::scaling` from src/matrix.rs. -/
def Matrix4.scaling (x y z : ℝ) : Matrix4 :=
  ⟨x, 0, 0, 0, 0, y, 0, 0, 0, 0, z, 0, 0, 0, 0, 1⟩

/-- `Matrix::transpose` from src/matrix.rs (loop unrolled). -/
def Matrix4.transpose (m : Matrix4) : Matrix4 :=
  ⟨m.d0, m.d4, m.d8, m.d12,
   m.d1, m.d5, m.d9, m.d13,
   m.d2, m.d6, m.d10, m.d14,
   m.d3, m.d7, m.d11, m.d15⟩

/-- `impl Mul<Tuple> for &Matrix` from src/matrix.rs: row-major
matrix–tuple product. -/
def Matrix4.mulTuple (m : Matrix4) (t : Tuple) : Tuple :=
  Tuple.new
    (m.d0 * t.x + m.d1 * t.y + m.d2 * t.z + m.d3 * t.w)
    (m.d4 * t.x + m.d5 * t.y + m.d6 * t.z + m.d7 * t.w)
    (m.d8 * t.x + m.d9 * t.y + m.d10 * t.z + m.d11 * t.w)
    (m.d12 * t.x + m.d13 * t.y + m.d14 * t.z + m.d15 * t.w)

/-- `Matrix::inverse` from src/matrix.rs: closed-form cofactor expansion.
Each `result.data[k]` of the source is the cofactor expression below; at the
end every entry is multiplied by `det = 1 / (d0*c0 + d1*c4 + d2*c8 + d3*c12)`. -/
def Matrix4.inverse (m : Matrix4) : Matrix4 :=
  let c0 := m.d5 * m.d10 * m.d15 - m.d5 * m.d11 * m.d14 - m.d9 * m.d6 * m.d15
    + m.d9 * m.d7 * m.d14 + m.d13 * m.d6 * m.d11 - m.d13 * m.d7 * m.d10
  let c4 := -m.d4 * m.d10 * m.d15 + m.d4 * m.d11 * m.d14 + m.d8 * m.d6 * m.d15
    - m.d8 * m.d7 * m.d14 - m.d12 * m.d6 * m.d11 + m.d12 * m.d7 * m.d10
  let c8 := m.d4 * m.d9 * m.d15 - m.d4 * m.d11 * m.d13 - m.d8 * m.d5 * m.d15
    + m.d8 * m.d7 * m.d13 + m.d12 * m.d5 * m.d11 - m.d12 * m.d7 * m.d9
  let c12 := -m.d4 * m.d9 * m.d14 + m.d4 * m.d10 * m.d13 + m.d8 * m.d5 * m.d14
    - m.d8 * m.d6 * m.d13 - m.d12 * m.d5 * m.d10 + m.d12 * m.d6 * m.d9
  let c1 := -m.d1 * m.d10 * m.d15 + m.d1 * m.d11 * m.d14 + m.d9 * m.d2 * m.d15
    - m.d9 * m.d3 * m.d14 - m.d13 * m.d2 * m.d11 + m.d13 * m.d3 * m.d10
  let c5 := m.d0 * m.d10 * m.d15 - m.d0 * m.d11 * m.d14 - m.d8 * m.d2 * m.d15
    + m.d8 * m.d3 * m.d14 + m.d12 * m.d2 * m.d11 - m.d12 * m.d3 * m.d10
  let c9 := -m.d0 * m.d9 * m.d15 + m.d0 * m.d11 * m.d13 + m.d8 * m.d1 * m.d15
    - m.d8 * m.d3 * m.d13 - m.d12 * m.d1 * m.d11 + m.d12 * m.d3 * m.d9
  let c13 := m.d0 * m.d9 * m.d14 - m.d0 * m.d10 * m.d13 - m.d8 * m.d1 * m.d14
    + m.d8 * m.d2 * m.d13 + m.d12 * m.d1 * m.d10 - m.d12 * m.d2 * m.d9
  let c2 := m.d1 * m.d6 * m.d15 - m.d1 * m.d7 * m.d14 - m.d5 * m.d2 * m.d15
    + m.d5 * m.d3 * m.d14 + m.d13 * m.d2 * m.d7 - m.d13 * m.d3 * m.d6
  let c6 := -m.d0 * m.d6 * m.d15 + m.d0 * m.d7 * m.d14 + m.d4 * m.d2 * m.d15
    - m.d4 * m.d3 * m.d14 - m.d12 * m.d2 * m.d7 + m.d12 * m.d3 * m.d6
  let c10 := m.d0 * m.d5 * m.d15 - m.d0 * m.d7 * m.d13 - m.d4 * m.d1 * m.d15
    + m.d4 * m.d3 * m.d13 + m.d12 * m.d1 * m.d7 - m.d12 * m.d3 * m.d5
  let c14 := -m.d0 * m.d5 * m.d14 + m.d0 * m.d6 * m.d13 + m.d4 * m.d1 * m.d14
    - m.d4 * m.d2 * m.d13 - m.d12 * m.d1 * m.d6 + m.d12 * m.d2 * m.d5
  let c3 := -m.d1 * m.d6 * m.d11 + m.d1 * m.d7 * m.d10 + m.d5 * m.d2 * m.d11
    - m.d5 * m.d3 * m.d10 - m.d9 * m.d2 * m.d7 + m.d9 * m.d3 * m.d6
  let c7 := m.d0 * m.d6 * m.d11 - m.d0 * m.d7 * m.d10 - m.d4 * m.d2 * m.d11
    + m.d4 * m.d3 * m.d10 + m.d8 * m.d2 * m.d7 - m.d8 * m.d3 * m.d6
  let c11 := -m.d0 * m.d5 * m.d11 + m.d0 * m.d7 * m.d9 + m.d4 * m.d1 * m.d11
    - m.d4 * m.d3 * m.d9 - m.d8 * m.d1 * m.d7 + m.d8 * m.d3 * m.d5
  let c15 := m.d0 * m.d5 * m.d10 - m.d0 * m.d6 * m.d9 - m.d4 * m.d1 * m.d10
    + m.d4 * m.d2 * m.d9 + m.d8 * m.d1 * m.d6 - m.d8 * m.d2 * m.d5
  let det := 1 / (m.d0 * c0 + m.d1 * c4 + m.d2 * c8 + m.d3 * c12)
  ⟨c0 * det, c1 * det, c2 * det, c3 * det,
   c4 * det, c5 * det, c6 * det, c7 * det,
   c8 * det, c9 * det, c10 * det, c11 * det,
   c12 * det, c13 * det, c14 * det, c15 * det⟩

/-- `Ray` from src/ray.rs. -/
structure Ray where
  origin : Tuple
  direction : Tuple

/-- `Ray::at` from src/ray.rs: `origin + direction * t`. -/
def Ray.at (r : Ray) (t : ℝ) : Tuple := r.origin + r.direction * t

/-- `Ray::transform` from src/ray.rs: transform origin and direction. -/
def Ray.transform (r : Ray) (m : Matrix4) : Ray :=
  ⟨m.mulTuple r.origin, m.mulTuple r.direction⟩

/-- `PointLight` from src/light.rs. -/
structure PointLight where
  position : Tuple
  color : Color

/-- `Material` from src/material.rs. -/
structure Material where
  color : Color
  ambient : ℝ
  diffuse : ℝ
  specular : ℝ
  shininess : ℝ

/-- `Material::default` from src/material.rs. -/
def Material.default : Material := ⟨Color.new 1 1 1, 0.1, 0.9, 0.9, 200⟩

/-- `Material::lighting` from src/material.rs (Phong).  `powf` on the
positive base `reflect_dot_eye` is `Real.rpow`. -/
def Material.lighting (m : Material) (light : PointLight)
    (position eye normal : Tuple) (in_shadow : Bool) : Color :=
  let color := m.color * light.color
  let lightv := (light.position - position).normalized
  let ambient := color * m.ambient
  let light_dot_normal := lightv.dot normal
  if in_shadow = true ∨ light_dot_normal < 0 then ambient
  else
    let diffuse := color * m.diffuse * light_dot_normal
    let reflectv := (-lightv).reflect normal
    let reflect_dot_eye := reflectv.dot eye
    if reflect_dot_eye ≤ 0 then ambient + diffuse
    else
      let factor := reflect_dot_eye ^ m.shininess
      let specular := light.color * m.specular * factor
      ambient + diffuse + specular

/-- The shape variants: `Sphere` (src/shape/sphere.rs, also src/sphere.rs)
and `Plane` (src/shape/plane.rs).  The source dispatches through
`Rc<dyn Shape>`; here a tagged sum carries the variant. -/
inductive ShapeKind where
  | sphere : ShapeKind
  | plane : ShapeKind
deriving DecidableEq

/-- A shape as the trait objects of src/shape.rs: a variant plus the common
`transform`, cached `transform_inverse` and `material` fields that both
`Sphere` and `Plane` carry. -/
structure Shape where
  kind : ShapeKind
  transform : Matrix4
  transform_inverse : Matrix4
  material : Material

/-- `Sphere::new` / `Plane::new`: `Default` gives the identity transform
(and its identity inverse) and the default material. -/
def Shape.new (k : ShapeKind) : Shape := ⟨k, Matrix4.eye, Matrix4.eye, Material.default⟩

/-- `set_transform` as implemented by both shapes: stores `transform` and
caches `transform.inverse()`. -/
def Shape.set_transform (s : Shape) (transform : Matrix4) : Shape :=
  { s with transform := transform, transform_inverse := transform.inverse }

/-- `Intersection` from src/intersection.rs: a distance and the shape hit.
The monotonically increasing `id` only backs `PartialEq`/`Debug` in the
source and plays no role in any modelled computation, so it is omitted. -/
structure Intersection where
  t : ℝ
  shape : Shape

/-- `Sphere::local_intersect` from src/shape/sphere.rs (the body of
`Sphere::intersect` in src/sphere.rs after the ray transform is identical),
and `Plane::local_intersect` from src/shape/plane.rs. -/
def Shape.local_intersect (s : Shape) (ray : Ray) : List Intersection :=
  match s.kind with
  | .sphere =>
    let oc := ray.origin - Tuple.point 0 0 0
    let a := ray.direction.norm_squared
    let b := ray.direction.dot oc
    let c := oc.norm_squared - 1
    let d := b * b - a * c
    if d < 0 then []
    else
      let sqrtd := Real.sqrt d
      [⟨(-b - sqrtd) / a, s⟩, ⟨(-b + sqrtd) / a, s⟩]
  | .plane =>
    if |ray.direction.y| < 0.000001 then []
    else [⟨-ray.origin.y / ray.direction.y, s⟩]

/-- `Shape::intersect` from src/shape.rs: intersect after transforming the
ray by the cached inverse (same flow as `Sphere::intersect` in
src/sphere.rs). -/
def Shape.intersect (s : Shape) (ray : Ray) : List Intersection :=
  s.local_intersect (ray.transform s.transform_inverse)

/-- `Sphere::local_normal_at` from src/shape/sphere.rs and
`Plane::local_normal_at` from src/shape/plane.rs. -/
def Shape.local_normal_at (s : Shape) (point : Tuple) : Tuple :=
  match s.kind with
  | .sphere => (point - Tuple.point 0 0 0).normalized
  | .plane => Tuple.vector 0 1 0

/-- `Shape::normal_at` from src/shape.rs: pull the point back to local
space, take the local normal, push it forward by the transposed inverse,
force w = 0, normalize. -/
def Shape.normal_at (s : Shape) (point : Tuple) : Tuple :=
  let point := s.transform_inverse.mulTuple point
  let normal := s.local_normal_at point
  let normal := s.transform_inverse.transpose.mulTuple normal
  let normal := Tuple.vector normal.x normal.y normal.z
  normal.normalized

/-- `Hit for Vec<Intersection>::hit` from src/intersection.rs: the first
element of the list whose `t` is strictly positive. -/
def hit (l : List Intersection) : Option Intersection :=
  l.find? (fun i => decide (0 < i.t))

/-- `EPS` from src/intersection.rs. -/
def EPS : ℝ := 0.000001

/-- `HitRecord` from src/intersection.rs. -/
structure HitRecord where
  t : ℝ
  shape : Shape
  point : Tuple
  over_point : Tuple
  under_point : Tuple
  eye : Tuple
  normal : Tuple
  inside : Bool

/-- `HitRecord::new` from src/intersection.rs. -/
def HitRecord.new (intersection : Intersection) (ray : Ray) : HitRecord :=
  let t := intersection.t
  let shape := intersection.shape
  let point := ray.at t
  let eye := -ray.direction
  let normal0 := shape.normal_at point
  let inside : Bool := decide (normal0.dot eye < 0)
  let normal := if normal0.dot eye < 0 then -normal0 else normal0
  let over_point := point + normal * EPS
  let under_point := point - normal * EPS
  ⟨t, shape, point, over_point, under_point, eye, normal, inside⟩

/-- `World` from src/world.rs. -/
structure World where
  shapes : List Shape
  lights : List PointLight

/-- `World::intersect` from src/world.rs: concatenate every shape's
intersections in insertion order and sort by `t`.  The source sorts with
`sort_unstable_by` on `Intersection::partial_cmp` (which compares the `t`
values); this is modelled by `List.mergeSort` with the same key.  The model
fixes one particular order among equal-`t` intersections, which the source,
using an unstable sort, does not promise. -/
def World.intersect (w : World) (ray : Ray) : List Intersection :=
  (w.shapes.map (fun s => s.intersect ray)).flatten.mergeSort
    (fun a b => decide (a.t ≤ b.t))

/-- `World::is_shadowed` from src/world.rs.  The source indexes
`self.lights[light_index]`, panicking when out of range; the panic is
modelled as `none`. -/
def World.is_shadowed (w : World) (light_index : ℕ) (point : Tuple) : Option Bool :=
  (w.lights.get? light_index).map fun light =>
    let v := light.position - point
    let distance := v.norm
    let direction := v / distance
    let ray : Ray := ⟨point, direction⟩
    let intersections := w.intersect ray
    match hit intersections with
    | some h => decide (h.t < distance)
    | none => false

end

/-!
Model of `f64` comparison semantics for src/intersection.rs.

`Hit::hit` tests `i.t > 0.0` and `PartialOrd for Intersection` returns
`None` when a `t` is NaN.  To state the NaN behaviour, the `t` of an
intersection is modelled here as either NaN or a finite value; `fgt`/`fle`
are IEEE-754 comparisons (false whenever NaN is involved).  Only the hit
selection and ordering of src/intersection.rs are modelled at this level;
the geometry above uses plain reals.
-/

/-- An `f64` as stored in `Intersection.t`: NaN or a (finite) real. -/
inductive F64 where
  | nan : F64
  | fin : ℝ → F64

/-- IEEE `<` on `F64`: false whenever an operand is NaN. -/
def F64.lt : F64 → F64 → Prop
  | .fin a, .fin b => a < b
  | _, _ => False

/-- IEEE `>` on `F64`. -/
def F64.gt (a b : F64) : Prop := F64.lt b a

/-- An intersection as seen by `Hit::hit`: only its `t` matters, tagged
with an id standing for the shape reference and unique id. -/
structure FInter where
  t : F64
  id : ℕ

noncomputable section

/-- `PartialOrd for Intersection::partial_cmp` from src/intersection.rs:
`None` when either `t` is NaN, otherwise `Less`/`Greater`/`Equal` by the
`<` and `>` tests on `t`. -/
def FInter.pcmp (a b : FInter) : Option Ordering :=
  match a.t, b.t with
  | .nan, _ => none
  | _, .nan => none
  | .fin x, .fin y =>
    some (if x < y then Ordering.lt else if x > y then Ordering.gt else Ordering.eq)

/-- `Hit for Vec<Intersection>::hit` from src/intersection.rs at the `F64`
level: scan for the first element with `i.t > 0.0`. -/
def fhit (l : List FInter) : Option FInter :=
  l.find? (fun i => decide (F64.gt i.t (F64.fin 0)))

/-- A list is t-sorted when no adjacent pair compares `Greater`; this is
what a run of the source's sort (which panics on NaN comparisons)
guarantees. -/
def FSorted (l : List FInter) : Prop :=
  l.Chain' (fun a b => a.pcmp b ≠ some Ordering.gt)

end

noncomputable section

/-!
Textures (src/texture.rs, src/texture/solid_color.rs,
src/texture/stripe.rs).  `Rc<dyn Texture>` becomes a tagged sum; each
variant carries its `transform` and cached `transform_inverse`.
-/

/-- Texture variants: `SolidColor` and `Stripe`. -/
inductive Texture where
  | solid : Color → Matrix4 → Matrix4 → Texture
  | stripe : Texture → Texture → Matrix4 → Matrix4 → Texture

/-- The texture's cached inverse transform. -/
def Texture.transform_inverse : Texture → Matrix4
  | .solid _ _ inv => inv
  | .stripe _ _ _ inv => inv

/-- Truncation toward zero (`f64 → i32` rounds toward zero). -/
def truncZ (x : ℝ) : ℤ := if 0 ≤ x then ⌊x⌋ else -⌊-x⌋

/-- The Rust `as i32` cast: truncate toward zero, saturating at the `i32`
bounds. -/
def asI32 (x : ℝ) : ℤ := max (-(2 ^ 31)) (min (2 ^ 31 - 1) (truncZ x))

/-- `SolidColor::color_at` ignores the point (src/texture/solid_color.rs);
`Stripe::color_at` from src/texture/stripe.rs picks `texture1` when
`point.x().floor() as i32 % 2 == 0` and `texture2` otherwise (`%` is the
Rust remainder, `Int.tmod`), handing the child the unmodified point through
`color_at_texture` (src/texture.rs), whose body — apply the child's own
inverse transform, then recurse — is inlined here to keep the recursion
structural. -/
def Texture.color_at : Texture → Tuple → Color
  | .solid c _ _, _ => c
  | .stripe t1 t2 _ _, point =>
    if Int.tmod (asI32 ⌊point.x⌋) 2 = 0 then
      t1.color_at (t1.transform_inverse.mulTuple point)
    else t2.color_at (t2.transform_inverse.mulTuple point)

/-- `Texture::color_at_texture` from src/texture.rs: apply the texture's
own inverse transform, then `color_at`. -/
def Texture.color_at_texture (t : Texture) (point : Tuple) : Color :=
  t.color_at (t.transform_inverse.mulTuple point)

/-- `Stripe::colors` from src/texture/stripe.rs: a stripe of two solid
colors, all transforms the identity. -/
def Stripe.colors (c1 c2 : Color) : Texture :=
  .stripe (.solid c1 Matrix4.eye Matrix4.eye) (.solid c2 Matrix4.eye Matrix4.eye)
    Matrix4.eye Matrix4.eye

/-!
Canvas and PPM serialization (src/canvas.rs, src/color.rs).
-/

/-- `Texture::set_transform`: `Stripe` stores the transform and caches
`transform.inverse()` (src/texture/stripe.rs); `SolidColor::set_transform`
is a no-op (src/texture/solid_color.rs). -/
def Texture.set_transform : Texture → Matrix4 → Texture
  | .solid c tr inv, _ => .solid c tr inv
  | .stripe a b _ _, m => .stripe a b m m.inverse

/-- One channel as emitted by `Display for Color` in src/color.rs:
`((c * 256.0) as i32).clamp(0, 255)`. -/
def ppmChannel (c : ℝ) : ℤ := max 0 (min 255 (asI32 (c * 256)))

/-- `Display for Color` from src/color.rs: `"{r} {g} {b}"`. -/
def Color.display (c : Color) : String :=
  toString (ppmChannel c.r) ++ " " ++ toString (ppmChannel c.g) ++ " "
    ++ toString (ppmChannel c.b)

/-- `Canvas` from src/canvas.rs: rows of pixels (`pixels[y][x]`). -/
structure Canvas where
  pixels : List (List Color)

/-- `Canvas::width` from src/canvas.rs. -/
def Canvas.width (c : Canvas) : ℕ :=
  match c.pixels with
  | [] => 0
  | row :: _ => row.length

/-- `Canvas::height` from src/canvas.rs. -/
def Canvas.height (c : Canvas) : ℕ := c.pixels.length

/-- `Canvas::to_ppm` from src/canvas.rs: the header, then for every row in
order, every pixel on its own line (a `writeln!` of the color display). -/
def Canvas.to_ppm (c : Canvas) : String :=
  "P3\n" ++ toString c.width ++ " " ++ toString c.height ++ "\n255\n"
    ++ String.join ((c.pixels.map
      (fun row => String.join (row.map (fun color => color.display ++ "\n")))))

/-- The first sphere of `test_world()` in the tests of src/world.rs: a unit
sphere with color (0.8, 1.0, 0.6), diffuse 0.7, specular 0.2. -/
def sphereA : Shape :=
  { Shape.new .sphere with
      material :=
        { Material.default with
            color := Color.new 0.8 1 0.6, diffuse := 0.7, specular := 0.2 } }

/-- The second sphere of `test_world()` in the tests of src/world.rs: a
sphere scaled by (0.5, 0.5, 0.5). -/
def sphereB : Shape := (Shape.new .sphere).set_transform (Matrix4.scaling 0.5 0.5 0.5)

/-- The world built by `test_world()` in the tests of src/world.rs: one
light at (−10, 10, −10) with color (1, 1, 1), plus `sphereA` and `sphereB`. -/
def testWorld : World :=
  { shapes := [sphereA, sphereB],
    lights := [⟨Tuple.point (-10) 10 (-10), Color.new 1 1 1⟩] }

/-- The permutation matrix exchanging the x and y axes (buildable through
`Matrix::new` in src/matrix.rs); it is its own inverse. -/
def swapXY : Matrix4 := ⟨0, 1, 0, 0, 1, 0, 0, 0, 0, 0, 1, 0, 0, 0, 0, 1⟩

/-- A stripe texture whose first child is itself a stripe carrying the
`swapXY` transform: `Stripe::new(Rc::new(inner), Rc::new(SolidColor::new(black)))`
after `inner.set_transform(swapXY)` with `inner = Stripe::colors(white, black)`. -/
def nestedStripe : Texture :=
  .stripe ((Stripe.colors (Color.new 1 1 1) (Color.new 0 0 0)).set_transform swapXY)
    (.solid (Color.new 0 0 0) Matrix4.eye Matrix4.eye) Matrix4.eye Matrix4.eye

end

noncomputable section

/-! Helper lemmas shared by the claim theorems. -/

/-- `List.find?` finds the first match: the list splits around the found
element with no earlier match. -/
theorem find?_split {α : Type _} {p : α → Bool} {l : List α} {a : α}
    (h : l.find? p = some a) :
    ∃ l1 l2, l = l1 ++ a :: l2 ∧ ∀ y ∈ l1, ¬ p y := by
  induction l with
  | nil => simp [List.find?] at h
  | cons x xs ih =>
    cases hx : p x with
    | true =>
      rw [List.find?_cons_of_pos _ hx] at h
      cases Option.some.inj h
      exact ⟨[], xs, rfl, by simp⟩
    | false =>
      rw [List.find?_cons_of_neg _ (by simp [hx])] at h
      obtain ⟨l1, l2, heq, hl1⟩ := ih h
      refine ⟨x :: l1, l2, by simp [heq], ?_⟩
      intro y hy
      rcases List.mem_cons.mp hy with rfl | hy2
      · simp [hx]
      · exact hl1 y hy2

/-- Unfolding lemma for tuple subtraction. -/
@[simp] theorem Tuple.sub_def (a b : Tuple) :
    a - b = Tuple.new (a.x - b.x) (a.y - b.y) (a.z - b.z) (a.w - b.w) := rfl

/-- Unfolding lemma for tuple addition. -/
@[simp] theorem Tuple.add_def (a b : Tuple) :
    a + b = Tuple.new (a.x + b.x) (a.y + b.y) (a.z + b.z) (a.w + b.w) := rfl

/-- Unfolding lemma for tuple negation. -/
@[simp] theorem Tuple.neg_def (a : Tuple) :
    -a = Tuple.new (-a.x) (-a.y) (-a.z) (-a.w) := rfl

/-- Unfolding lemma for tuple–scalar multiplication. -/
@[simp] theorem Tuple.mul_def (a : Tuple) (r : ℝ) :
    a * r = Tuple.new (a.x * r) (a.y * r) (a.z * r) (a.w * r) := rfl

/-- Unfolding lemma for tuple–scalar division. -/
@[simp] theorem Tuple.div_def (a : Tuple) (r : ℝ) :
    a / r = Tuple.new (a.x / r) (a.y / r) (a.z / r) (a.w / r) := rfl

/-- Unfolding lemma for the components of a freshly built tuple. -/
@[simp] theorem Tuple.new_x (x y z w : ℝ) : (Tuple.new x y z w).x = x := rfl

/-- Unfolding lemma for the components of a freshly built tuple. -/
@[simp] theorem Tuple.new_y (x y z w : ℝ) : (Tuple.new x y z w).y = y := rfl

/-- Unfolding lemma for the components of a freshly built tuple. -/
@[simp] theorem Tuple.new_z (x y z w : ℝ) : (Tuple.new x y z w).z = z := rfl

/-- Unfolding lemma for the components of a freshly built tuple. -/
@[simp] theorem Tuple.new_w (x y z w : ℝ) : (Tuple.new x y z w).w = w := rfl

/-- Unfolding lemma for color addition. -/
@[simp] theorem Color.add_color_def (a c : Color) :
    a + c = Color.new (a.r + c.r) (a.g + c.g) (a.b + c.b) := rfl

/-- Unfolding lemma for the Hadamard product. -/
@[simp] theorem Color.mul_color_def (a c : Color) :
    a * c = Color.new (a.r * c.r) (a.g * c.g) (a.b * c.b) := rfl

/-- Unfolding lemma for color–scalar multiplication. -/
@[simp] theorem Color.smul_def (a : Color) (s : ℝ) :
    a * s = Color.new (a.r * s) (a.g * s) (a.b * s) := rfl

/-- Unfolding lemma for the components of a freshly built color. -/
@[simp] theorem Color.new_r (r g b : ℝ) : (Color.new r g b).r = r := rfl

/-- Unfolding lemma for the components of a freshly built color. -/
@[simp] theorem Color.new_g (r g b : ℝ) : (Color.new r g b).g = g := rfl

/-- Unfolding lemma for the components of a freshly built color. -/
@[simp] theorem Color.new_b (r g b : ℝ) : (Color.new r g b).b = b := rfl

/-- C10: tuple indexing returns the x, y and z components at indices 0, 1
and 2, and fails fast (the panic is modelled as `none`) at every index ≥ 3,
for both the read and the write operator; in particular the w component is
unreachable through indexing. -/
theorem tuple_index_spec :
    (∀ t : Tuple, t.index 0 = some t.x ∧ t.index 1 = some t.y ∧ t.index 2 = some t.z) ∧
    (∀ (t : Tuple) (i : ℕ), 3 ≤ i → t.index i = none) ∧
    (∀ (t : Tuple) (v : ℝ), t.index_set 0 v = some { t with x := v } ∧
      t.index_set 1 v = some { t with y := v } ∧
      t.index_set 2 v = some { t with z := v }) ∧
    (∀ (t : Tuple) (i : ℕ) (v : ℝ), 3 ≤ i → t.index_set i v = none) := by
  refine ⟨fun t => ⟨rfl, rfl, rfl⟩, ?_, fun t v => ⟨rfl, rfl, rfl⟩, ?_⟩
  · intro t i hi
    obtain ⟨n, rfl⟩ : ∃ n, i = n + 3 := ⟨i - 3, by omega⟩
    rfl
  · intro t i v hi
    obtain ⟨n, rfl⟩ : ∃ n, i = n + 3 := ⟨i - 3, by omega⟩
    rfl

/-- C10 witness: indexing the tuple (1, 2, 3, 4) at 3 — where w sits —
fails, for reading and for writing. -/
theorem tuple_index_spec_witness :
    (Tuple.new 1 2 3 4).index 3 = none ∧ (Tuple.new 1 2 3 4).index_set 3 5 = none :=
  ⟨tuple_index_spec.2.1 _ 3 (by norm_num), tuple_index_spec.2.2.2 _ 3 5 (by norm_num)⟩

/-- C2: on a t-sorted intersection list, `hit` returns the first element
whose t is strictly greater than 0 (IEEE comparison) and no hit when there
is none; an intersection whose t is NaN is never the hit, since NaN
compares unordered and fails the `t > 0.0` test. -/
theorem fhit_spec (l : List FInter) (hsorted : FSorted l) :
    (fhit l = none ↔ ∀ x ∈ l, ¬ F64.gt x.t (F64.fin 0)) ∧
    (∀ x, fhit l = some x →
      F64.gt x.t (F64.fin 0) ∧ x.t ≠ F64.nan ∧
      ∃ l1 l2, l = l1 ++ x :: l2 ∧ ∀ y ∈ l1, ¬ F64.gt y.t (F64.fin 0)) := by
  constructor
  · simp [fhit]
  · intro x hx
    have hx' : l.find? (fun i => decide (F64.gt i.t (F64.fin 0))) = some x := hx
    have h1 := List.find?_some hx'
    have h2 : F64.gt x.t (F64.fin 0) := of_decide_eq_true h1
    refine ⟨h2, ?_, ?_⟩
    · intro hnan
      rw [hnan] at h2
      simp [F64.gt, F64.lt] at h2
    · obtain ⟨l1, l2, heq, hl1⟩ := find?_split hx'
      refine ⟨l1, l2, heq, fun y hy => ?_⟩
      simpa using hl1 y hy

/-- C2 witness: on the sorted list with t values −2, NaN, 3 the hit is the
t = 3 entry: the nonpositive and the NaN entries are both skipped. -/
theorem fhit_spec_witness :
    fhit [⟨F64.fin (-2), 0⟩, ⟨F64.nan, 1⟩, ⟨F64.fin 3, 2⟩] = some ⟨F64.fin 3, 2⟩ ∧
    F64.gt (F64.fin 3) (F64.fin 0) ∧ (F64.fin 3) ≠ F64.nan := by
  have hsorted : FSorted [⟨F64.fin (-2), 0⟩, ⟨F64.nan, 1⟩, ⟨F64.fin 3, 2⟩] := by
    simp [FSorted, FInter.pcmp]
  have hfind : fhit [⟨F64.fin (-2), 0⟩, ⟨F64.nan, 1⟩, ⟨F64.fin 3, 2⟩] =
      some ⟨F64.fin 3, 2⟩ := by
    rw [fhit, List.find?_cons_of_neg, List.find?_cons_of_neg, List.find?_cons_of_pos]
    · simp [F64.gt, F64.lt]
    · simp [F64.gt, F64.lt]
    · simp [F64.gt, F64.lt]
  have h := (fhit_spec _ hsorted).2 _ hfind
  exact ⟨hfind, h.1, h.2.1⟩

/-- C9: the plane's local intersect returns no intersection when the ray
direction's |y| is below ε = 1e−6 and exactly one intersection at
t = −origin.y / direction.y otherwise; the local normal is always
(0, 1, 0); the ray from (0, 1, 0) toward (0, −1, 0) hits the xz-plane at
t = 1. -/
theorem plane_local_intersect_spec :
    (∀ (s : Shape) (r : Ray), s.kind = ShapeKind.plane →
      (|r.direction.y| < 0.000001 → s.local_intersect r = []) ∧
      (¬ |r.direction.y| < 0.000001 →
        s.local_intersect r = [⟨-r.origin.y / r.direction.y, s⟩]) ∧
      (∀ p, s.local_normal_at p = Tuple.vector 0 1 0)) ∧
    (Shape.new .plane).local_intersect ⟨Tuple.point 0 1 0, Tuple.vector 0 (-1) 0⟩ =
      [⟨1, Shape.new .plane⟩] := by
  constructor
  · intro s r hk
    obtain ⟨k, tr, inv, mat⟩ := s
    cases k with
    | sphere => simp [Shape.kind] at hk
    | plane =>
      refine ⟨fun h => ?_, fun h => ?_, fun p => rfl⟩
      · simp [Shape.local_intersect, h]
      · simp [Shape.local_intersect, h]
  · have h : ¬ |((⟨Tuple.point 0 1 0, Tuple.vector 0 (-1) 0⟩ : Ray)).direction.y| <
        0.000001 := by
      norm_num [Tuple.vector, Tuple.new]
    simp [Shape.local_intersect, Shape.new, h, Tuple.vector, Tuple.point, Tuple.new]
    norm_num

/-- C9 witness: a ray parallel to the plane misses it, and the ray from
below at (0, −1, 0) toward (0, 1, 0) hits at t = 1. -/
theorem plane_local_intersect_spec_witness :
    (Shape.new .plane).local_intersect ⟨Tuple.point 0 10 0, Tuple.vector 0 0 1⟩ = [] ∧
    (Shape.new .plane).local_intersect ⟨Tuple.point 0 (-1) 0, Tuple.vector 0 1 0⟩ =
      [⟨1, Shape.new .plane⟩] := by
  constructor
  · exact (plane_local_intersect_spec.1 _ _ rfl).1 (by norm_num [Tuple.vector, Tuple.new])
  · have h := (plane_local_intersect_spec.1 (Shape.new .plane)
      ⟨Tuple.point 0 (-1) 0, Tuple.vector 0 1 0⟩ rfl).2.1
      (by norm_num [Tuple.vector, Tuple.new])
    rw [h]
    norm_num [Tuple.vector, Tuple.point, Tuple.new]

/-- C8: the hit record's `inside` flag is set, and the normal flipped,
exactly when the unflipped shape normal at the hit point dotted with the
eye vector is negative; `over_point` and `under_point` offset the hit
point along the possibly-flipped normal by ε = 1e−6. -/
theorem hit_record_new_spec (i : Intersection) (r : Ray) :
    (HitRecord.new i r).point = r.at i.t ∧
    (HitRecord.new i r).eye = -r.direction ∧
    ((HitRecord.new i r).inside = true ↔
      (i.shape.normal_at (r.at i.t)).dot (-r.direction) < 0) ∧
    (HitRecord.new i r).normal =
      (if (i.shape.normal_at (r.at i.t)).dot (-r.direction) < 0
        then -(i.shape.normal_at (r.at i.t)) else i.shape.normal_at (r.at i.t)) ∧
    (HitRecord.new i r).over_point =
      (HitRecord.new i r).point + (HitRecord.new i r).normal * EPS ∧
    (HitRecord.new i r).under_point =
      (HitRecord.new i r).point - (HitRecord.new i r).normal * EPS ∧
    EPS = 1 / 1000000 := by
  refine ⟨rfl, rfl, ?_, ?_, rfl, rfl, by norm_num [EPS]⟩
  · simp [HitRecord.new]
  · by_cases h : (i.shape.normal_at (r.at i.t)).dot (-r.direction) < 0
    · rw [if_pos h]
      show (if (i.shape.normal_at (r.at i.t)).dot (-r.direction) < 0
        then -(i.shape.normal_at (r.at i.t)) else i.shape.normal_at (r.at i.t)) = _
      rw [if_pos h]
    · rw [if_neg h]
      show (if (i.shape.normal_at (r.at i.t)).dot (-r.direction) < 0
        then -(i.shape.normal_at (r.at i.t)) else i.shape.normal_at (r.at i.t)) = _
      rw [if_neg h]

/-- C6: `lighting` returns exactly the ambient term when in shadow or when
the light is behind the surface (ldn < 0); ambient + diffuse when the
reflection misses the eye (rde ≤ 0); and otherwise additionally the
specular term light.intensity · specular · rde^shininess. -/
theorem lighting_spec (m : Material) (light : PointLight) (position eye normal : Tuple)
    (in_shadow : Bool) :
    (in_shadow = true →
      m.lighting light position eye normal in_shadow =
        m.color * light.color * m.ambient) ∧
    ((light.position - position).normalized.dot normal < 0 →
      m.lighting light position eye normal in_shadow =
        m.color * light.color * m.ambient) ∧
    (in_shadow = false → 0 ≤ (light.position - position).normalized.dot normal →
      ((-(light.position - position).normalized).reflect normal).dot eye ≤ 0 →
      m.lighting light position eye normal in_shadow =
        m.color * light.color * m.ambient +
          m.color * light.color * m.diffuse *
            ((light.position - position).normalized.dot normal)) ∧
    (in_shadow = false → 0 ≤ (light.position - position).normalized.dot normal →
      0 < ((-(light.position - position).normalized).reflect normal).dot eye →
      m.lighting light position eye normal in_shadow =
        m.color * light.color * m.ambient +
          m.color * light.color * m.diffuse *
            ((light.position - position).normalized.dot normal) +
          light.color * m.specular *
            (((-(light.position - position).normalized).reflect normal).dot eye)
              ^ m.shininess) := by
  refine ⟨fun h => ?_, fun h => ?_, fun h1 h2 h3 => ?_, fun h1 h2 h3 => ?_⟩
  · rw [Material.lighting, if_pos (Or.inl h)]
  · rw [Material.lighting, if_pos (Or.inr h)]
  · rw [Material.lighting, if_neg (by push_neg; exact ⟨by simp [h1], h2⟩),
      if_pos h3]
  · rw [Material.lighting, if_neg (by push_neg; exact ⟨by simp [h1], h2⟩),
      if_neg (not_le.mpr h3)]

/-- C6 witness: with the default material, a light at (0, 0, −1) with
intensity (1, 1, 1), the surface at the origin and eye and normal both
(0, 0, −1): out of shadow, every term contributes and the color is
0.1 + 0.9 + 0.9 = 1.9 per channel; in shadow only ambient 0.1 remains. -/
theorem lighting_spec_witness :
    Material.default.lighting ⟨Tuple.point 0 0 (-1), Color.new 1 1 1⟩ (Tuple.point 0 0 0)
      (Tuple.vector 0 0 (-1)) (Tuple.vector 0 0 (-1)) false = Color.new 1.9 1.9 1.9 ∧
    Material.default.lighting ⟨Tuple.point 0 0 (-1), Color.new 1 1 1⟩ (Tuple.point 0 0 0)
      (Tuple.vector 0 0 (-1)) (Tuple.vector 0 0 (-1)) true = Color.new 0.1 0.1 0.1 := by
  have e1 : ((⟨Tuple.point 0 0 (-1), Color.new 1 1 1⟩ : PointLight).position -
      Tuple.point 0 0 0).normalized.dot (Tuple.vector 0 0 (-1)) = 1 := by
    norm_num [Tuple.normalized, Tuple.norm, Tuple.norm_squared, Tuple.dot,
      Tuple.point, Tuple.vector, Tuple.new, Real.sqrt_one]
  have e2 : ((-((⟨Tuple.point 0 0 (-1), Color.new 1 1 1⟩ : PointLight).position -
      Tuple.point 0 0 0).normalized).reflect (Tuple.vector 0 0 (-1))).dot
      (Tuple.vector 0 0 (-1)) = 1 := by
    norm_num [Tuple.normalized, Tuple.norm, Tuple.norm_squared, Tuple.dot, Tuple.reflect,
      Tuple.point, Tuple.vector, Tuple.new, Real.sqrt_one]
  constructor
  · have h := (lighting_spec Material.default ⟨Tuple.point 0 0 (-1), Color.new 1 1 1⟩
      (Tuple.point 0 0 0) (Tuple.vector 0 0 (-1)) (Tuple.vector 0 0 (-1)) false).2.2.2
      rfl (by rw [e1]; norm_num) (by rw [e2]; norm_num)
    rw [h, e1, e2, Real.one_rpow]
    norm_num [Material.default]
  · have h := (lighting_spec Material.default ⟨Tuple.point 0 0 (-1), Color.new 1 1 1⟩
      (Tuple.point 0 0 0) (Tuple.vector 0 0 (-1)) (Tuple.vector 0 0 (-1)) true).1 rfl
    rw [h]
    norm_num [Material.default]

/-- `norm_squared` is the dot product of a tuple with itself. -/
theorem Tuple.norm_squared_eq_dot (a : Tuple) : a.norm_squared = a.dot a := rfl

/-- The identity matrix acts as the identity on tuples. -/
theorem Matrix4.eye_mulTuple (t : Tuple) : Matrix4.eye.mulTuple t = t := by
  simp only [Matrix4.eye, Matrix4.mulTuple, one_mul, zero_mul, mul_zero, add_zero, zero_add]
  rfl

/-- Transforming a ray by the identity matrix leaves it unchanged. -/
theorem Ray.transform_eye (r : Ray) : r.transform Matrix4.eye = r := by
  simp [Ray.transform, Matrix4.eye_mulTuple]

/-- `local_intersect` on a sphere shape, in closed form. -/
theorem sphere_local_intersect_eq (s : Shape) (hk : s.kind = ShapeKind.sphere) (r : Ray) :
    s.local_intersect r =
      (let oc := r.origin - Tuple.point 0 0 0
       let a := r.direction.norm_squared
       let b := r.direction.dot oc
       let c := oc.norm_squared - 1
       let d := b * b - a * c
       if d < 0 then []
       else [⟨(-b - Real.sqrt d) / a, s⟩, ⟨(-b + Real.sqrt d) / a, s⟩]) := by
  obtain ⟨k, tr, inv, mat⟩ := s
  cases k with
  | plane => simp [Shape.kind] at hk
  | sphere => rfl

/-- `intersect` of a sphere whose cached inverse is `scaling k k k`, against
the ray from point (ox, oy, oz) toward vector (dx, dy, dz), in closed form
over explicitly provided quadratic coefficients. -/
theorem sphere_scaled_intersect_eq (s : Shape) (k ox oy oz dx dy dz a b c d : ℝ)
    (hk : s.kind = ShapeKind.sphere)
    (hinv : s.transform_inverse = Matrix4.scaling k k k)
    (ha : a = k * dx * (k * dx) + k * dy * (k * dy) + k * dz * (k * dz))
    (hb : b = k * dx * (k * ox) + k * dy * (k * oy) + k * dz * (k * oz))
    (hc : c = k * ox * (k * ox) + k * oy * (k * oy) + k * oz * (k * oz) - 1)
    (hd : d = b * b - a * c) :
    s.intersect ⟨Tuple.point ox oy oz, Tuple.vector dx dy dz⟩ =
      if d < 0 then []
      else [⟨(-b - Real.sqrt d) / a, s⟩, ⟨(-b + Real.sqrt d) / a, s⟩] := by
  rw [Shape.intersect, hinv]
  have htr : (Ray.transform ⟨Tuple.point ox oy oz, Tuple.vector dx dy dz⟩
      (Matrix4.scaling k k k)) =
      ⟨Tuple.new (k * ox) (k * oy) (k * oz) 1, Tuple.new (k * dx) (k * dy) (k * dz) 0⟩ := by
    simp [Ray.transform, Matrix4.mulTuple, Matrix4.scaling, Tuple.point, Tuple.vector,
      Tuple.new]
  rw [htr, sphere_local_intersect_eq s hk]
  have hoc : (Tuple.new (k * ox) (k * oy) (k * oz) 1 - Tuple.point 0 0 0) =
      Tuple.new (k * ox) (k * oy) (k * oz) 0 := by
    simp [Tuple.point, Tuple.new]
  simp only [hoc]
  have ha' : (Tuple.new (k * dx) (k * dy) (k * dz) 0).norm_squared = a := by
    simp [Tuple.norm_squared, ha]
  have hb' : (Tuple.new (k * dx) (k * dy) (k * dz) 0).dot
      (Tuple.new (k * ox) (k * oy) (k * oz) 0) = b := by
    simp [Tuple.dot, hb]
  have hc' : (Tuple.new (k * ox) (k * oy) (k * oz) 0).norm_squared - 1 = c := by
    simp [Tuple.norm_squared, hc]
  simp only [ha', hb', hc', ← hd]

/-- The cofactor inverse of `scaling 2 2 2` is `scaling ½ ½ ½`. -/
theorem inverse_scaling_two :
    (Matrix4.scaling 2 2 2).inverse = Matrix4.scaling (1 / 2) (1 / 2) (1 / 2) := by
  simp only [Matrix4.inverse, Matrix4.scaling]
  norm_num

/-- The cofactor inverse of `scaling ½ ½ ½` is `scaling 2 2 2`. -/
theorem inverse_scaling_half :
    (Matrix4.scaling 0.5 0.5 0.5).inverse = Matrix4.scaling 2 2 2 := by
  simp only [Matrix4.inverse, Matrix4.scaling]
  norm_num

/-- C3: the sphere's local intersect computes oc = o − origin, a = d·d,
b = d·oc, c = oc·oc − 1, Δ = b² − a·c, returns nothing when Δ < 0 and
otherwise the two intersections (−b ∓ √Δ)/a, smaller first; the ray
(0,0,−5) → (0,0,1) meets the unit sphere at t = 4 and t = 6, and the
sphere scaled by (2,2,2) at t = 3 and t = 7. -/
theorem sphere_intersect_spec :
    (∀ (s : Shape) (r : Ray), s.kind = ShapeKind.sphere →
      let oc := r.origin - Tuple.point 0 0 0
      let a := r.direction.norm_squared
      let b := r.direction.dot oc
      let c := oc.norm_squared - 1
      let d := b * b - a * c
      a = r.direction.dot r.direction ∧
      c = oc.dot oc - 1 ∧
      (d < 0 → s.local_intersect r = []) ∧
      (¬ d < 0 → s.local_intersect r =
          [⟨(-b - Real.sqrt d) / a, s⟩, ⟨(-b + Real.sqrt d) / a, s⟩] ∧
        (-b - Real.sqrt d) / a ≤ (-b + Real.sqrt d) / a)) ∧
    (Shape.new .sphere).intersect ⟨Tuple.point 0 0 (-5), Tuple.vector 0 0 1⟩ =
      [⟨4, Shape.new .sphere⟩, ⟨6, Shape.new .sphere⟩] ∧
    ((Shape.new .sphere).set_transform (Matrix4.scaling 2 2 2)).intersect
        ⟨Tuple.point 0 0 (-5), Tuple.vector 0 0 1⟩ =
      [⟨3, (Shape.new .sphere).set_transform (Matrix4.scaling 2 2 2)⟩,
       ⟨7, (Shape.new .sphere).set_transform (Matrix4.scaling 2 2 2)⟩] := by
  refine ⟨?_, ?_, ?_⟩
  · intro s r hk
    intro oc a b c d
    refine ⟨rfl, rfl, fun h => ?_, fun h => ⟨?_, ?_⟩⟩
    · rw [sphere_local_intersect_eq s hk, if_pos h]
    · rw [sphere_local_intersect_eq s hk, if_neg h]
    · have ha : 0 ≤ a := by
        have h1 := mul_self_nonneg r.direction.x
        have h2 := mul_self_nonneg r.direction.y
        have h3 := mul_self_nonneg r.direction.z
        have h4 := mul_self_nonneg r.direction.w
        simp only [a, Tuple.norm_squared]
        linarith
      rcases ha.eq_or_lt with heq | hpos
      · rw [← heq]
        simp
      · have hs := Real.sqrt_nonneg d
        rw [div_le_div_iff_of_pos_right hpos]
        linarith
  · rw [sphere_scaled_intersect_eq (Shape.new .sphere) 1 0 0 (-5) 0 0 1 1 (-5) 24 1
      rfl rfl (by norm_num) (by norm_num) (by norm_num) (by norm_num)]
    rw [if_neg (by norm_num)]
    norm_num [Real.sqrt_one]
  · have hsq : Real.sqrt (1 / 4 : ℝ) = 1 / 2 := by
      rw [show (1 / 4 : ℝ) = (1 / 2) ^ 2 by norm_num,
        Real.sqrt_sq (by norm_num : (0:ℝ) ≤ 1 / 2)]
    rw [sphere_scaled_intersect_eq ((Shape.new .sphere).set_transform (Matrix4.scaling 2 2 2))
      (1 / 2) 0 0 (-5) 0 0 1 (1 / 4) (-(5 / 4)) (21 / 4) (1 / 4) rfl
      (by rw [Shape.set_transform]; exact inverse_scaling_two)
      (by norm_num) (by norm_num) (by norm_num) (by norm_num)]
    rw [if_neg (by norm_num)]
    rw [hsq]
    norm_num

/-- C3 witness: the general branch instantiated at the two-hit ray
(0,0,−5) → (0,0,1) against the unit sphere: Δ = 1 ≥ 0 and the two
intersection distances come out in increasing order. -/
theorem sphere_intersect_spec_witness :
    (Shape.new .sphere).local_intersect ⟨Tuple.point 0 0 (-5), Tuple.vector 0 0 1⟩ =
      [⟨4, Shape.new .sphere⟩, ⟨6, Shape.new .sphere⟩] := by
  have h := (sphere_intersect_spec.1 (Shape.new .sphere)
    ⟨Tuple.point 0 0 (-5), Tuple.vector 0 0 1⟩ rfl).2.2.2
    (by norm_num [Tuple.norm_squared, Tuple.dot, Tuple.point, Tuple.vector, Tuple.new])
  rw [h.1]
  norm_num [Tuple.norm_squared, Tuple.dot, Tuple.point, Tuple.vector, Tuple.new,
    Real.sqrt_one]

/-- Clamping to [0, 255] after saturating at the `i32` bounds equals
clamping to [0, 255] directly. -/
theorem clamp_sat (n : ℤ) :
    max 0 (min 255 (max (-(2 ^ 31)) (min (2 ^ 31 - 1) n))) = max 0 (min 255 n) := by
  have h : ((2:ℤ) ^ 31) = 2147483648 := by norm_num
  rw [h]
  simp only [Int.max_def, Int.min_def]
  split_ifs <;> omega

/-- The serialized channel of src/color.rs — `((c * 256.0) as i32).clamp(0, 255)`
— equals `clamp(floor(c · 256), 0, 255)`: truncation and floor differ only
below zero, where the lower clamp wins either way, and the `i32` saturation
bounds lie outside [0, 255]. -/
theorem ppmChannel_eq_floor (x : ℝ) : ppmChannel x = max 0 (min 255 ⌊x * 256⌋) := by
  rw [ppmChannel, asI32, clamp_sat, truncZ]
  by_cases h : 0 ≤ x * 256
  · rw [if_pos h]
  · rw [if_neg h]
    push_neg at h
    have h1 : ⌊x * 256⌋ ≤ 0 := Int.floor_nonpos h.le
    have h2 : 0 ≤ ⌊-(x * 256)⌋ := Int.floor_nonneg.mpr (by linarith)
    simp only [Int.max_def, Int.min_def]
    split_ifs <;> omega

/-- C4: serialization emits the `P3` header, the dimensions, max channel
255, then the pixels in row-major order, one space-separated RGB triple per
line with a newline after each pixel, each channel clamp(⌊c·256⌋, 0, 255);
channel 1.5 serializes to 255, 0.5 to 128 and −0.5 to 0. -/
theorem to_ppm_spec :
    (∀ c : Canvas, c.to_ppm =
      "P3\n" ++ toString c.width ++ " " ++ toString c.height ++ "\n255\n"
        ++ String.join (c.pixels.map (fun row => String.join (row.map (fun px =>
            toString (max 0 (min 255 ⌊px.r * 256⌋)) ++ " " ++
            toString (max 0 (min 255 ⌊px.g * 256⌋)) ++ " " ++
            toString (max 0 (min 255 ⌊px.b * 256⌋)) ++ "\n"))))) ∧
    ppmChannel 1.5 = 255 ∧ ppmChannel 0.5 = 128 ∧ ppmChannel (-0.5) = 0 := by
  refine ⟨fun c => ?_, ?_, ?_, ?_⟩
  · rw [Canvas.to_ppm]
    simp only [Color.display, ppmChannel_eq_floor]
  · rw [ppmChannel_eq_floor,
      show ((1.5:ℝ) * 256) = ((384:ℤ):ℝ) by norm_num, Int.floor_intCast]
    decide
  · rw [ppmChannel_eq_floor,
      show ((0.5:ℝ) * 256) = ((128:ℤ):ℝ) by norm_num, Int.floor_intCast]
    decide
  · rw [ppmChannel_eq_floor,
      show ((-0.5:ℝ) * 256) = ((-128:ℤ):ℝ) by norm_num, Int.floor_intCast]
    decide

/-- `truncZ` on an integer is that integer. -/
theorem truncZ_intCast (n : ℤ) : truncZ (n : ℝ) = n := by
  rw [truncZ]
  split_ifs with h
  · exact Int.floor_intCast n
  · rw [show (-(n:ℝ)) = ((-n : ℤ) : ℝ) by push_cast; ring, Int.floor_intCast]
    omega

/-- `as i32` leaves an integer in the `i32` range unchanged. -/
theorem asI32_intCast_of_range (n : ℤ) (h1 : -(2 ^ 31) ≤ n) (h2 : n ≤ 2 ^ 31 - 1) :
    asI32 (n : ℝ) = n := by
  rw [asI32, truncZ_intCast]
  omega

/-- The Rust remainder `n % 2` is zero exactly for even `n`. -/
theorem tmod_two_eq_zero_iff_even (n : ℤ) : Int.tmod n 2 = 0 ↔ Even n := by
  rw [← Int.dvd_iff_tmod_eq_zero]
  constructor
  · rintro ⟨c, hc⟩
    exact ⟨c, by omega⟩
  · rintro ⟨c, hc⟩
    exact ⟨c, by omega⟩

/-- The x/y-swap matrix is its own cofactor inverse. -/
theorem inverse_swapXY : swapXY.inverse = swapXY := by
  simp only [Matrix4.inverse, swapXY]
  norm_num

/-- C5 counterexample: the claim fails as stated.  At x = 2³¹ the floor is
even, but `floor() as i32` saturates to 2³¹ − 1, which is odd, so the
stripe returns texture b's color.  And `color_at` is not independent of y
for every stripe texture: with a child stripe transformed by `swapXY`,
moving y from 0 to 1 flips the color. -/
theorem stripe_color_at_counterexample :
    ((Stripe.colors (Color.new 1 1 1) (Color.new 0 0 0)).color_at
        (Tuple.point (2 ^ 31) 0 0) = Color.new 0 0 0 ∧
      Even ⌊((2:ℝ) ^ 31)⌋) ∧
    nestedStripe.color_at (Tuple.point 0.5 0 0) ≠
      nestedStripe.color_at (Tuple.point 0.5 1 0) := by
  have hfl : ⌊((2:ℝ) ^ 31)⌋ = 2147483648 := by
    rw [show ((2:ℝ) ^ 31) = ((2147483648:ℤ):ℝ) by norm_num, Int.floor_intCast]
  refine ⟨⟨?_, ?_⟩, ?_⟩
  · rw [Stripe.colors, Texture.color_at]
    rw [if_neg]
    · rfl
    · rw [show (Tuple.point (2 ^ 31) 0 0).x = ((2:ℝ) ^ 31) from rfl, hfl]
      rw [show asI32 ((2147483648:ℤ):ℝ) = 2147483647 by
        rw [asI32, truncZ_intCast]; decide]
      decide
  · rw [hfl]
    decide
  · have h1 : nestedStripe.color_at (Tuple.point 0.5 0 0) = Color.new 1 1 1 := by
      rw [nestedStripe, Texture.color_at]
      rw [if_pos]
      · rw [show (Stripe.colors (Color.new 1 1 1) (Color.new 0 0 0)).set_transform swapXY =
            .stripe (.solid (Color.new 1 1 1) Matrix4.eye Matrix4.eye)
              (.solid (Color.new 0 0 0) Matrix4.eye Matrix4.eye) swapXY swapXY.inverse
            from rfl]
        rw [show Texture.transform_inverse (.stripe (.solid (Color.new 1 1 1)
            Matrix4.eye Matrix4.eye) (.solid (Color.new 0 0 0) Matrix4.eye Matrix4.eye)
            swapXY swapXY.inverse) = swapXY.inverse from rfl, inverse_swapXY]
        have hswap : swapXY.mulTuple (Tuple.point 0.5 0 0) = Tuple.new 0 0.5 0 1 := by
          simp [swapXY, Matrix4.mulTuple, Tuple.point, Tuple.new]
        rw [hswap, Texture.color_at]
        rw [if_pos]
        · rfl
        · rw [show (Tuple.new 0 0.5 0 1).x = (0:ℝ) from rfl]
          rw [show ⌊(0:ℝ)⌋ = ((0:ℤ)) by simp]
          rw [asI32_intCast_of_range 0 (by norm_num) (by norm_num)]
          decide
      · rw [show (Tuple.point 0.5 0 0).x = (0.5:ℝ) from rfl]
        rw [show ⌊(0.5:ℝ)⌋ = ((0:ℤ)) by rw [Int.floor_eq_iff] <;> norm_num]
        rw [asI32_intCast_of_range 0 (by norm_num) (by norm_num)]
        decide
    have h2 : nestedStripe.color_at (Tuple.point 0.5 1 0) = Color.new 0 0 0 := by
      rw [nestedStripe, Texture.color_at]
      rw [if_pos]
      · rw [show (Stripe.colors (Color.new 1 1 1) (Color.new 0 0 0)).set_transform swapXY =
            .stripe (.solid (Color.new 1 1 1) Matrix4.eye Matrix4.eye)
              (.solid (Color.new 0 0 0) Matrix4.eye Matrix4.eye) swapXY swapXY.inverse
            from rfl]
        rw [show Texture.transform_inverse (.stripe (.solid (Color.new 1 1 1)
            Matrix4.eye Matrix4.eye) (.solid (Color.new 0 0 0) Matrix4.eye Matrix4.eye)
            swapXY swapXY.inverse) = swapXY.inverse from rfl, inverse_swapXY]
        have hswap : swapXY.mulTuple (Tuple.point 0.5 1 0) = Tuple.new 1 0.5 0 1 := by
          simp [swapXY, Matrix4.mulTuple, Tuple.point, Tuple.new]
        rw [hswap, Texture.color_at]
        rw [if_neg]
        · rfl
        · rw [show (Tuple.new 1 0.5 0 1).x = (1:ℝ) from rfl]
          rw [show ⌊(1:ℝ)⌋ = ((1:ℤ)) by simp]
          rw [asI32_intCast_of_range 1 (by norm_num) (by norm_num)]
          decide
      · rw [show (Tuple.point 0.5 1 0).x = (0.5:ℝ) from rfl]
        rw [show ⌊(0.5:ℝ)⌋ = ((0:ℤ)) by rw [Int.floor_eq_iff] <;> norm_num]
        rw [asI32_intCast_of_range 0 (by norm_num) (by norm_num)]
        decide
    rw [h1, h2]
    simp [Color.new]

/-- C5 amended: for the two-color stripe, `color_at` picks texture a when
the saturating `i32` cast of ⌊x⌋ is even and texture b when it is odd —
which for −2³¹ ≤ x < 2³¹ is the parity of the mathematical floor (so
x = −0.1 gives texture b) — and is independent of y and z. -/
theorem stripe_color_at_amended :
    (∀ (c1 c2 : Color) (x y z : ℝ),
      (Stripe.colors c1 c2).color_at (Tuple.point x y z) =
        if Int.tmod (asI32 (⌊x⌋ : ℝ)) 2 = 0 then c1 else c2) ∧
    (∀ (c1 c2 : Color) (x y z : ℝ), -(2 ^ 31) ≤ x → x < 2 ^ 31 →
      (Stripe.colors c1 c2).color_at (Tuple.point x y z) =
        if Even ⌊x⌋ then c1 else c2) ∧
    (∀ (c1 c2 : Color) (y z : ℝ),
      (Stripe.colors c1 c2).color_at (Tuple.point (-0.1) y z) = c2) ∧
    (∀ (c1 c2 : Color) (x y z y' z' : ℝ),
      (Stripe.colors c1 c2).color_at (Tuple.point x y z) =
        (Stripe.colors c1 c2).color_at (Tuple.point x y' z')) := by
  have base : ∀ (c1 c2 : Color) (x y z : ℝ),
      (Stripe.colors c1 c2).color_at (Tuple.point x y z) =
        if Int.tmod (asI32 (⌊x⌋ : ℝ)) 2 = 0 then c1 else c2 := by
    intro c1 c2 x y z
    rw [Stripe.colors, Texture.color_at]
    rw [show (Tuple.point x y z).x = x from rfl]
    split_ifs with h
    · rfl
    · rfl
  refine ⟨base, ?_, ?_, ?_⟩
  · intro c1 c2 x y z hlo hhi
    rw [base]
    have h231 : ((2:ℝ) ^ 31) = 2147483648 := by norm_num
    have h1 : -(2 ^ 31) ≤ ⌊x⌋ := by
      rw [Int.le_floor]
      push_cast
      rw [← h231]
      exact hlo
    have h2 : ⌊x⌋ ≤ 2 ^ 31 - 1 := by
      have := Int.floor_lt.mpr (show x < ((2 ^ 31 : ℤ) : ℝ) by push_cast; rw [← h231]; exact hhi)
      omega
    rw [asI32_intCast_of_range _ h1 h2]
    by_cases he : Even ⌊x⌋
    · rw [if_pos ((tmod_two_eq_zero_iff_even _).mpr he), if_pos he]
    · rw [if_neg (fun hc => he ((tmod_two_eq_zero_iff_even _).mp hc)), if_neg he]
  · intro c1 c2 y z
    rw [base]
    rw [show ⌊(-0.1:ℝ)⌋ = ((-1:ℤ)) by rw [Int.floor_eq_iff] <;> norm_num]
    rw [asI32_intCast_of_range (-1) (by norm_num) (by norm_num)]
    rw [if_neg (by decide)]
  · intro c1 c2 x y z y' z'
    rw [base, base]

/-- C5 witness: the in-range branch at x = 3.7 — floor 3 is odd, so the
stripe of white and black returns black. -/
theorem stripe_color_at_witness :
    (Stripe.colors (Color.new 1 1 1) (Color.new 0 0 0)).color_at
      (Tuple.point 3.7 0 0) = Color.new 0 0 0 := by
  have h := stripe_color_at_amended.2.1 (Color.new 1 1 1) (Color.new 0 0 0) 3.7 0 0
    (by norm_num) (by norm_num)
  rw [h]
  rw [show ⌊(3.7:ℝ)⌋ = ((3:ℤ)) by rw [Int.floor_eq_iff] <;> norm_num]
  rw [if_neg (by decide)]

/-- `World::intersect` returns a permutation of the concatenation of the
per-shape intersections in insertion order. -/
theorem world_intersect_perm (w : World) (r : Ray) :
    (w.intersect r).Perm (w.shapes.map (fun s => s.intersect r)).flatten :=
  List.mergeSort_perm _ _

/-- Membership in `World::intersect` is membership in the concatenation. -/
theorem world_intersect_mem (w : World) (r : Ray) (i : Intersection) :
    i ∈ w.intersect r ↔ i ∈ (w.shapes.map (fun s => s.intersect r)).flatten :=
  (world_intersect_perm w r).mem_iff

/-- `World::intersect` is sorted by t. -/
theorem world_intersect_sorted (w : World) (r : Ray) :
    (w.intersect r).Pairwise (fun a b => a.t ≤ b.t) := by
  have h := @List.sorted_mergeSort Intersection
    (fun a b => decide (a.t ≤ b.t))
    (fun a b c hab hbc => by
      simp only [decide_eq_true_eq] at *
      exact le_trans hab hbc)
    (fun a b => by
      simp only [Bool.or_eq_true, decide_eq_true_eq]
      exact le_total a.t b.t)
    ((w.shapes.map (fun s => s.intersect r)).flatten)
  exact h.imp (fun hab => by simpa using hab)

/-- `hit` returns `none` exactly when no intersection has positive t. -/
theorem hit_none_iff (l : List Intersection) :
    hit l = none ↔ ∀ x ∈ l, ¬ 0 < x.t := by
  simp [hit]

/-- A returned hit lies in the list and has positive t. -/
theorem hit_some_mem {l : List Intersection} {h : Intersection} (hh : hit l = some h) :
    h ∈ l ∧ 0 < h.t := by
  have hh' : l.find? (fun i => decide (0 < i.t)) = some h := hh
  have h1 := List.find?_some hh'
  have h2 := List.mem_of_find?_eq_some hh'
  exact ⟨h2, of_decide_eq_true h1⟩

/-- On a t-sorted list, the hit has the least t among positive-t entries. -/
theorem hit_some_min {l : List Intersection} {h : Intersection}
    (hs : l.Pairwise (fun a b => a.t ≤ b.t)) (hh : hit l = some h) :
    ∀ x ∈ l, 0 < x.t → h.t ≤ x.t := by
  have hh' : l.find? (fun i => decide (0 < i.t)) = some h := hh
  obtain ⟨l1, l2, rfl, hl1⟩ := find?_split hh'
  intro x hx hxpos
  rcases List.mem_append.mp hx with hx1 | hx2
  · exact absurd hxpos (by simpa using hl1 x hx1)
  · rcases List.mem_cons.mp hx2 with rfl | hx3
    · exact le_refl _
    · have := (List.pairwise_append.mp hs).2.1
      exact List.rel_of_pairwise_cons this hx3

/-- `World::is_shadowed` in terms of the intersection list: with the light
resolved, the result is `true` exactly when some intersection of the
shadow ray has 0 < t < distance, and `false` exactly otherwise. -/
theorem is_shadowed_iff (w : World) (li : ℕ) (p : Tuple) (light : PointLight)
    (hget : w.lights.get? li = some light) :
    (w.is_shadowed li p = some true ↔
      ∃ i ∈ w.intersect ⟨p, (light.position - p) / (light.position - p).norm⟩,
        0 < i.t ∧ i.t < (light.position - p).norm) ∧
    (w.is_shadowed li p = some false ↔
      ¬ ∃ i ∈ w.intersect ⟨p, (light.position - p) / (light.position - p).norm⟩,
        0 < i.t ∧ i.t < (light.position - p).norm) := by
  rw [World.is_shadowed, hget, Option.map_some']
  dsimp only
  rcases hfind : hit (w.intersect
      ⟨p, (light.position - p) / (light.position - p).norm⟩) with _ | h
  · dsimp only
    have hnone := (hit_none_iff _).mp hfind
    constructor
    · simp only [Option.some.injEq]
      constructor
      · intro hc
        exact absurd hc (by simp)
      · rintro ⟨i, hi, hipos, _⟩
        exact absurd hipos (hnone i hi)
    · simp only [Option.some.injEq]
      constructor
      · rintro - ⟨i, hi, hipos, -⟩
        exact absurd hipos (hnone i hi)
      · intro
        trivial
  · dsimp only
    obtain ⟨hmem, hpos⟩ := hit_some_mem hfind
    have hmin := hit_some_min (world_intersect_sorted w _) hfind
    constructor
    · simp only [Option.some.injEq, decide_eq_true_eq]
      constructor
      · intro hlt
        exact ⟨h, hmem, hpos, hlt⟩
      · rintro ⟨i, hi, hipos, hilt⟩
        exact lt_of_le_of_lt (hmin i hi hipos) hilt
    · simp only [Option.some.injEq, decide_eq_false_iff_not]
      constructor
      · intro hge hc
        obtain ⟨i, hi, hipos, hilt⟩ := hc
        exact hge (lt_of_le_of_lt (hmin i hi hipos) hilt)
      · intro hc
        intro hlt
        exact hc ⟨h, hmem, hpos, hlt⟩

/-- The light of `testWorld` resolved at index 0. -/
theorem testWorld_light0 :
    testWorld.lights.get? 0 = some ⟨Tuple.point (-10) 10 (-10), Color.new 1 1 1⟩ := rfl

/-- The cached inverse of `sphereB`'s transform is `scaling 2 2 2`. -/
theorem sphereB_inverse : sphereB.transform_inverse = Matrix4.scaling 2 2 2 := by
  rw [show sphereB.transform_inverse = (Matrix4.scaling 0.5 0.5 0.5).inverse from rfl,
    inverse_scaling_half]

/-- The point (0, 10, 0) is not shadowed in the test world: both spheres
miss the shadow ray (negative discriminants). -/
theorem testWorld_shadow_p4 : testWorld.is_shadowed 0 (Tuple.point 0 10 0) = some false := by
  have hL : (⟨Tuple.point (-10) 10 (-10), Color.new 1 1 1⟩ : PointLight).position -
      Tuple.point 0 10 0 = Tuple.new (-10) 0 (-10) 0 := by
    norm_num [Tuple.point, Tuple.new]
  have hnsq : (Tuple.new (-10) 0 (-10) 0).norm_squared = 200 := by
    norm_num [Tuple.norm_squared]
  have hnorm : (Tuple.new (-10) 0 (-10) 0).norm = Real.sqrt 200 := by
    rw [Tuple.norm, hnsq]
  have hdiv : Tuple.new (-10) 0 (-10) 0 / Real.sqrt 200 =
      Tuple.vector (-10 / Real.sqrt 200) 0 (-10 / Real.sqrt 200) := by
    simp [Tuple.vector, Tuple.new]
  have hss : Real.sqrt 200 * Real.sqrt 200 = 200 :=
    Real.mul_self_sqrt (by norm_num)
  have hs0 : Real.sqrt 200 ≠ 0 := by positivity
  have eA : sphereA.intersect ⟨Tuple.point 0 10 0,
      Tuple.vector (-10 / Real.sqrt 200) 0 (-10 / Real.sqrt 200)⟩ = [] := by
    rw [sphere_scaled_intersect_eq sphereA 1 0 10 0 (-10 / Real.sqrt 200) 0
      (-10 / Real.sqrt 200) 1 0 99 (-99) rfl rfl
      (by field_simp; linarith [hss]) (by norm_num) (by norm_num) (by norm_num)]
    rw [if_pos (by norm_num)]
  have eB : sphereB.intersect ⟨Tuple.point 0 10 0,
      Tuple.vector (-10 / Real.sqrt 200) 0 (-10 / Real.sqrt 200)⟩ = [] := by
    rw [sphere_scaled_intersect_eq sphereB 2 0 10 0 (-10 / Real.sqrt 200) 0
      (-10 / Real.sqrt 200) 4 0 399 (-1596) rfl sphereB_inverse
      (by field_simp; linarith [hss]) (by norm_num) (by norm_num) (by norm_num)]
    rw [if_pos (by norm_num)]
  refine (is_shadowed_iff testWorld 0 (Tuple.point 0 10 0)
    ⟨Tuple.point (-10) 10 (-10), Color.new 1 1 1⟩ testWorld_light0).2.mpr ?_
  rintro ⟨i, hi, hipos, -⟩
  rw [hL, hnorm, hdiv] at hi
  rw [world_intersect_mem] at hi
  simp only [testWorld, List.map_cons, List.map_nil, List.flatten_cons, List.flatten_nil,
    List.append_nil] at hi
  rw [eA, eB] at hi
  simp at hi

/-- The point (−2, 2, −2) is not shadowed in the test world: every
intersection of the shadow ray lies behind its origin (negative t). -/
theorem testWorld_shadow_p3 :
    testWorld.is_shadowed 0 (Tuple.point (-2) 2 (-2)) = some false := by
  have hL : (⟨Tuple.point (-10) 10 (-10), Color.new 1 1 1⟩ : PointLight).position -
      Tuple.point (-2) 2 (-2) = Tuple.new (-8) 8 (-8) 0 := by
    norm_num [Tuple.point, Tuple.new]
  have hnsq : (Tuple.new (-8) 8 (-8) 0).norm_squared = 192 := by
    norm_num [Tuple.norm_squared]
  have hnorm : (Tuple.new (-8) 8 (-8) 0).norm = Real.sqrt 192 := by
    rw [Tuple.norm, hnsq]
  have hdiv : Tuple.new (-8) 8 (-8) 0 / Real.sqrt 192 =
      Tuple.vector (-8 / Real.sqrt 192) (8 / Real.sqrt 192) (-8 / Real.sqrt 192) := by
    simp [Tuple.vector, Tuple.new]
  have hss : Real.sqrt 192 * Real.sqrt 192 = 192 :=
    Real.mul_self_sqrt (by norm_num)
  have hspos : (0:ℝ) < Real.sqrt 192 := Real.sqrt_pos.mpr (by norm_num)
  have hs0 : Real.sqrt 192 ≠ 0 := ne_of_gt hspos
  have hsq4 : Real.sqrt 4 = 2 := by
    rw [show (4:ℝ) = 2 ^ 2 by norm_num, Real.sqrt_sq (by norm_num : (0:ℝ) ≤ 2)]
  have eA : sphereA.intersect ⟨Tuple.point (-2) 2 (-2),
      Tuple.vector (-8 / Real.sqrt 192) (8 / Real.sqrt 192) (-8 / Real.sqrt 192)⟩ =
      [⟨(-(48 / Real.sqrt 192) - Real.sqrt 1) / 1, sphereA⟩,
       ⟨(-(48 / Real.sqrt 192) + Real.sqrt 1) / 1, sphereA⟩] := by
    rw [sphere_scaled_intersect_eq sphereA 1 (-2) 2 (-2) (-8 / Real.sqrt 192)
      (8 / Real.sqrt 192) (-8 / Real.sqrt 192) 1 (48 / Real.sqrt 192) 11 1 rfl rfl
      (by field_simp; linarith [hss]) (by ring)
      (by norm_num) (by field_simp; linarith [hss])]
    rw [if_neg (by norm_num)]
  have eB : sphereB.intersect ⟨Tuple.point (-2) 2 (-2),
      Tuple.vector (-8 / Real.sqrt 192) (8 / Real.sqrt 192) (-8 / Real.sqrt 192)⟩ =
      [⟨(-(192 / Real.sqrt 192) - Real.sqrt 4) / 4, sphereB⟩,
       ⟨(-(192 / Real.sqrt 192) + Real.sqrt 4) / 4, sphereB⟩] := by
    rw [sphere_scaled_intersect_eq sphereB 2 (-2) 2 (-2) (-8 / Real.sqrt 192)
      (8 / Real.sqrt 192) (-8 / Real.sqrt 192) 4 (192 / Real.sqrt 192) 47 4 rfl
      sphereB_inverse
      (by field_simp; linarith [hss]) (by ring)
      (by norm_num) (by field_simp; linarith [hss])]
    rw [if_neg (by norm_num)]
  refine (is_shadowed_iff testWorld 0 (Tuple.point (-2) 2 (-2))
    ⟨Tuple.point (-10) 10 (-10), Color.new 1 1 1⟩ testWorld_light0).2.mpr ?_
  rintro ⟨i, hi, hipos, hilt⟩
  rw [hL, hnorm, hdiv] at hi
  rw [world_intersect_mem] at hi
  simp only [testWorld, List.map_cons, List.map_nil, List.flatten_cons, List.flatten_nil,
    List.append_nil] at hi
  rw [eA, eB] at hi
  simp only [List.mem_append, List.mem_cons, List.not_mem_nil, or_false] at hi
  have hq : (0:ℝ) < 48 / Real.sqrt 192 := by positivity
  rcases hi with (rfl | rfl) | (rfl | rfl)
  · simp only [Real.sqrt_one, div_one] at hipos
    linarith
  · simp only [Real.sqrt_one, div_one] at hipos
    have h48 : 48 < Real.sqrt 192 := by
      rw [show -(48 / Real.sqrt 192) + 1 = 1 - 48 / Real.sqrt 192 by ring] at hipos
      have := (div_lt_one hspos).mp (by linarith)
      linarith
    nlinarith [hss, h48]
  · simp only [hsq4] at hipos
    have hq2 : (0:ℝ) < 192 / Real.sqrt 192 := by positivity
    linarith
  · simp only [hsq4] at hipos
    have h1 : 192 / Real.sqrt 192 < 2 := by linarith
    rw [div_lt_iff₀ hspos] at h1
    nlinarith [hss, hspos, h1, sq_nonneg (Real.sqrt 192 - 96)]

/-- The point (−20, 20, −20) is not shadowed in the test world: all hits of
the shadow ray lie beyond the light (t ≥ distance). -/
theorem testWorld_shadow_p2 :
    testWorld.is_shadowed 0 (Tuple.point (-20) 20 (-20)) = some false := by
  have hL : (⟨Tuple.point (-10) 10 (-10), Color.new 1 1 1⟩ : PointLight).position -
      Tuple.point (-20) 20 (-20) = Tuple.new 10 (-10) 10 0 := by
    norm_num [Tuple.point, Tuple.new]
  have hnsq : (Tuple.new 10 (-10) 10 0).norm_squared = 300 := by
    norm_num [Tuple.norm_squared]
  have hnorm : (Tuple.new 10 (-10) 10 0).norm = Real.sqrt 300 := by
    rw [Tuple.norm, hnsq]
  have hdiv : Tuple.new 10 (-10) 10 0 / Real.sqrt 300 =
      Tuple.vector (10 / Real.sqrt 300) (-10 / Real.sqrt 300) (10 / Real.sqrt 300) := by
    simp [Tuple.vector, Tuple.new]
  have hss : Real.sqrt 300 * Real.sqrt 300 = 300 :=
    Real.mul_self_sqrt (by norm_num)
  have hspos : (0:ℝ) < Real.sqrt 300 := Real.sqrt_pos.mpr (by norm_num)
  have hs0 : Real.sqrt 300 ≠ 0 := ne_of_gt hspos
  have hsq4 : Real.sqrt 4 = 2 := by
    rw [show (4:ℝ) = 2 ^ 2 by norm_num, Real.sqrt_sq (by norm_num : (0:ℝ) ≤ 2)]
  have eA : sphereA.intersect ⟨Tuple.point (-20) 20 (-20),
      Tuple.vector (10 / Real.sqrt 300) (-10 / Real.sqrt 300) (10 / Real.sqrt 300)⟩ =
      [⟨(-(-600 / Real.sqrt 300) - Real.sqrt 1) / 1, sphereA⟩,
       ⟨(-(-600 / Real.sqrt 300) + Real.sqrt 1) / 1, sphereA⟩] := by
    rw [sphere_scaled_intersect_eq sphereA 1 (-20) 20 (-20) (10 / Real.sqrt 300)
      (-10 / Real.sqrt 300) (10 / Real.sqrt 300) 1 (-600 / Real.sqrt 300) 1199 1 rfl rfl
      (by field_simp; linarith [hss]) (by ring)
      (by norm_num) (by field_simp; linarith [hss])]
    rw [if_neg (by norm_num)]
  have eB : sphereB.intersect ⟨Tuple.point (-20) 20 (-20),
      Tuple.vector (10 / Real.sqrt 300) (-10 / Real.sqrt 300) (10 / Real.sqrt 300)⟩ =
      [⟨(-(-2400 / Real.sqrt 300) - Real.sqrt 4) / 4, sphereB⟩,
       ⟨(-(-2400 / Real.sqrt 300) + Real.sqrt 4) / 4, sphereB⟩] := by
    rw [sphere_scaled_intersect_eq sphereB 2 (-20) 20 (-20) (10 / Real.sqrt 300)
      (-10 / Real.sqrt 300) (10 / Real.sqrt 300) 4 (-2400 / Real.sqrt 300) 4799 4 rfl
      sphereB_inverse
      (by field_simp; linarith [hss]) (by ring)
      (by norm_num) (by field_simp; linarith [hss])]
    rw [if_neg (by norm_num)]
  refine (is_shadowed_iff testWorld 0 (Tuple.point (-20) 20 (-20))
    ⟨Tuple.point (-10) 10 (-10), Color.new 1 1 1⟩ testWorld_light0).2.mpr ?_
  rintro ⟨i, hi, hipos, hilt⟩
  rw [hL, hnorm, hdiv] at hi
  rw [hL, hnorm] at hilt
  rw [world_intersect_mem] at hi
  simp only [testWorld, List.map_cons, List.map_nil, List.flatten_cons, List.flatten_nil,
    List.append_nil] at hi
  rw [eA, eB] at hi
  simp only [List.mem_append, List.mem_cons, List.not_mem_nil, or_false] at hi
  rcases hi with (rfl | rfl) | (rfl | rfl)
  · simp only [Real.sqrt_one, div_one, neg_div, neg_neg] at hilt
    have h1 : 600 / Real.sqrt 300 < Real.sqrt 300 + 1 := by linarith
    rw [div_lt_iff₀ hspos] at h1
    nlinarith [hss, hspos, h1, sq_nonneg (Real.sqrt 300 - 300)]
  · simp only [Real.sqrt_one, div_one, neg_div, neg_neg] at hilt
    have h1 : 600 / Real.sqrt 300 < Real.sqrt 300 - 1 := by linarith
    rw [div_lt_iff₀ hspos] at h1
    nlinarith [hss, hspos, h1]
  · simp only [hsq4, neg_div, neg_neg] at hilt
    have h1 : 2400 / Real.sqrt 300 - 2 < Real.sqrt 300 * 4 := by
      rw [← div_lt_iff₀ (by norm_num : (0:ℝ) < 4)]
      linarith
    have h2 : 2400 / Real.sqrt 300 < 4 * Real.sqrt 300 + 2 := by linarith
    rw [div_lt_iff₀ hspos] at h2
    nlinarith [hss, hspos, h2, sq_nonneg (Real.sqrt 300 - 600)]
  · simp only [hsq4, neg_div, neg_neg] at hilt
    have h1 : 2400 / Real.sqrt 300 + 2 < Real.sqrt 300 * 4 := by
      rw [← div_lt_iff₀ (by norm_num : (0:ℝ) < 4)]
      linarith
    have h2 : 2400 / Real.sqrt 300 < 4 * Real.sqrt 300 - 2 := by linarith
    rw [div_lt_iff₀ hspos] at h2
    nlinarith [hss, hspos, h2]

/-- The point (10, −10, 10) is shadowed in the test world: the unit sphere
stands between the point and the light. -/
theorem testWorld_shadow_p1 :
    testWorld.is_shadowed 0 (Tuple.point 10 (-10) 10) = some true := by
  have hL : (⟨Tuple.point (-10) 10 (-10), Color.new 1 1 1⟩ : PointLight).position -
      Tuple.point 10 (-10) 10 = Tuple.new (-20) 20 (-20) 0 := by
    norm_num [Tuple.point, Tuple.new]
  have hnsq : (Tuple.new (-20) 20 (-20) 0).norm_squared = 1200 := by
    norm_num [Tuple.norm_squared]
  have hnorm : (Tuple.new (-20) 20 (-20) 0).norm = Real.sqrt 1200 := by
    rw [Tuple.norm, hnsq]
  have hdiv : Tuple.new (-20) 20 (-20) 0 / Real.sqrt 1200 =
      Tuple.vector (-20 / Real.sqrt 1200) (20 / Real.sqrt 1200) (-20 / Real.sqrt 1200) := by
    simp [Tuple.vector, Tuple.new]
  have hss : Real.sqrt 1200 * Real.sqrt 1200 = 1200 :=
    Real.mul_self_sqrt (by norm_num)
  have hspos : (0:ℝ) < Real.sqrt 1200 := Real.sqrt_pos.mpr (by norm_num)
  have hs0 : Real.sqrt 1200 ≠ 0 := ne_of_gt hspos
  have eA : sphereA.intersect ⟨Tuple.point 10 (-10) 10,
      Tuple.vector (-20 / Real.sqrt 1200) (20 / Real.sqrt 1200) (-20 / Real.sqrt 1200)⟩ =
      [⟨(-(-600 / Real.sqrt 1200) - Real.sqrt 1) / 1, sphereA⟩,
       ⟨(-(-600 / Real.sqrt 1200) + Real.sqrt 1) / 1, sphereA⟩] := by
    rw [sphere_scaled_intersect_eq sphereA 1 10 (-10) 10 (-20 / Real.sqrt 1200)
      (20 / Real.sqrt 1200) (-20 / Real.sqrt 1200) 1 (-600 / Real.sqrt 1200) 299 1 rfl rfl
      (by field_simp; linarith [hss]) (by ring)
      (by norm_num) (by field_simp; linarith [hss])]
    rw [if_neg (by norm_num)]
  refine (is_shadowed_iff testWorld 0 (Tuple.point 10 (-10) 10)
    ⟨Tuple.point (-10) 10 (-10), Color.new 1 1 1⟩ testWorld_light0).1.mpr ?_
  rw [hL, hnorm, hdiv]
  refine ⟨⟨(-(-600 / Real.sqrt 1200) - Real.sqrt 1) / 1, sphereA⟩, ?_, ?_, ?_⟩
  · rw [world_intersect_mem]
    simp only [testWorld, List.map_cons, List.map_nil, List.flatten_cons, List.flatten_nil,
      List.append_nil]
    rw [eA]
    simp
  · simp only [Real.sqrt_one, div_one, neg_div, neg_neg]
    have h1 : (1:ℝ) < 600 / Real.sqrt 1200 := by
      rw [lt_div_iff₀ hspos]
      nlinarith [hss, hspos, sq_nonneg (Real.sqrt 1200 - 600)]
    linarith
  · simp only [Real.sqrt_one, div_one, neg_div, neg_neg]
    have h1 : 600 / Real.sqrt 1200 < Real.sqrt 1200 + 1 := by
      rw [div_lt_iff₀ hspos]
      nlinarith [hss, hspos]
    linarith

/-- C7: `is_shadowed` resolves the light, fires a ray from the point toward
the light (direction v/d with v the offset to the light and d = |v|) and
reports true exactly when that ray has a positive hit at t < d; in the test
world with its light at (−10, 10, −10), the point (10, −10, 10) is shadowed
while (−20, 20, −20), (−2, 2, −2) and (0, 10, 0) are not. -/
theorem is_shadowed_spec :
    (∀ (w : World) (light_index : ℕ) (p : Tuple) (light : PointLight),
      w.lights.get? light_index = some light →
      (w.is_shadowed light_index p = some true ↔
        ∃ i ∈ w.intersect ⟨p, (light.position - p) / (light.position - p).norm⟩,
          0 < i.t ∧ i.t < (light.position - p).norm)) ∧
    testWorld.is_shadowed 0 (Tuple.point 10 (-10) 10) = some true ∧
    testWorld.is_shadowed 0 (Tuple.point (-20) 20 (-20)) = some false ∧
    testWorld.is_shadowed 0 (Tuple.point (-2) 2 (-2)) = some false ∧
    testWorld.is_shadowed 0 (Tuple.point 0 10 0) = some false :=
  ⟨fun w light_index p light hget => (is_shadowed_iff w light_index p light hget).1,
   testWorld_shadow_p1, testWorld_shadow_p2, testWorld_shadow_p3, testWorld_shadow_p4⟩

/-- C7 witness: the characterization instantiated at the test world (index
0 resolves to its light) and the point (10, −10, 10). -/
theorem is_shadowed_spec_witness :
    testWorld.is_shadowed 0 (Tuple.point 10 (-10) 10) = some true ↔
      ∃ i ∈ testWorld.intersect ⟨Tuple.point 10 (-10) 10,
        ((⟨Tuple.point (-10) 10 (-10), Color.new 1 1 1⟩ : PointLight).position -
            Tuple.point 10 (-10) 10) /
          ((⟨Tuple.point (-10) 10 (-10), Color.new 1 1 1⟩ : PointLight).position -
            Tuple.point 10 (-10) 10).norm⟩,
        0 < i.t ∧ i.t <
          ((⟨Tuple.point (-10) 10 (-10), Color.new 1 1 1⟩ : PointLight).position -
            Tuple.point 10 (-10) 10).norm :=
  is_shadowed_spec.1 testWorld 0 (Tuple.point 10 (-10) 10) _ testWorld_light0

end

end Truster
